import Mathlib

/-
Verification of the Citra HLE kernel object / handle / synchronization / IPC
subsystem (src/core/hle/kernel).  The definitions below are a shallow
embedding of the C++ sources:

  - kernel.cpp        : WaitObject wait lists, GetHighestPriorityReadyThread,
                        WakeupAllWaitingThreads, HandleTable
  - event.cpp         : Event
  - semaphore.cpp     : Semaphore
  - server_port.cpp   : ServerPort
  - client_port.cpp   : ClientPort::Connect
  - server_session.cpp: ServerSession, HandleSyncRequest, TranslateHLERequest

Machine integers s32/u32/u16 are modelled as Int or Nat (overflow is made
explicit where the source wraps).  A C++ assertion failure (ASSERT_MSG
aborts the process) is modelled by returning none from the operation.
Headers that are not part of the available sources (kernel.h, thread.h) are
modelled from the specification; each such definition says so in its doc
comment.
-/

set_option autoImplicit false

namespace Citra

/-- Error kinds returned by the kernel operations (errors.h is summarized by
the taxonomy of the spec: InvalidHandle, OutOfHandles, InvalidCombination,
OutOfRange). -/
inductive KError
  | invalidHandle
  | outOfHandles
  | invalidCombination
  | outOfRange
  deriving DecidableEq, Repr

/-- Event reset types (event.h via event.cpp usage): OneShot, Sticky, Pulse. -/
inductive ResetType
  | oneShot
  | sticky
  | pulse
  deriving DecidableEq, Repr

/-- Closed tagged variant of the concrete WaitObject kinds appearing in the
sources: Event (signaled flag and reset type), Semaphore (available and max
counts, s32 in the source, modelled as Int), ServerPort (pending session
queue, holding session object ids), ServerSession (signaled flag and whether
an HLE handler is attached). -/
inductive ObjData
  | event (resetType : ResetType) (signaled : Bool)
  | semaphore (availableCount maxCount : Int)
  | serverPort (pendingSessions : List Nat)
  | serverSession (signaled : Bool) (hasHandler : Bool)
  deriving DecidableEq, Repr

/-- ShouldWait of each concrete kind, translated from the sources:
Event::ShouldWait is !signaled; Semaphore::ShouldWait is available_count <= 0;
ServerPort::ShouldWait is pending_sessions.size() == 0;
ServerSession::ShouldWait is !signaled. -/
def ObjData.shouldWait : ObjData → Bool
  | .event _ signaled => !signaled
  | .semaphore availableCount _ => decide (availableCount ≤ 0)
  | .serverPort pendingSessions => pendingSessions.length == 0
  | .serverSession signaled _ => !signaled

/-- Acquire of each concrete kind, translated from the sources.  A result of
none models an ASSERT_MSG failure (which aborts the host process in C++):
Event::Acquire asserts !ShouldWait() and clears signaled unless the reset
type is Sticky; Semaphore::Acquire has no assertion: it silently returns
when available_count <= 0 and otherwise decrements; ServerPort::Acquire
asserts !ShouldWait() and changes nothing; ServerSession::Acquire asserts
!ShouldWait() and clears signaled. -/
def ObjData.acquire : ObjData → Option ObjData
  | .event resetType signaled =>
      if !signaled then none
      else some (.event resetType (if resetType ≠ ResetType.sticky then false else signaled))
  | .semaphore availableCount maxCount =>
      some (if availableCount ≤ 0 then .semaphore availableCount maxCount
            else .semaphore (availableCount - 1) maxCount)
  | .serverPort pendingSessions =>
      if pendingSessions.length == 0 then none else some (.serverPort pendingSessions)
  | .serverSession signaled hasHandler =>
      if !signaled then none else some (.serverSession false hasHandler)

/-- Thread status values.  Modelled from the spec: thread.h is not among the
available sources; the spec lists status as an enum containing at least
Running, Ready, WaitSync, Dead together with further waiting states. -/
inductive ThreadStatus
  | running
  | ready
  | waitArb
  | waitSleep
  | waitSync
  | dormant
  | dead
  deriving DecidableEq, Repr

/-- Thread collaborator interface.  Modelled from the spec: thread.h is not
among the available sources.  The spec gives: priority (integer, lower value
is more urgent; current_priority in kernel.cpp), status, wait_objects (the
ordered list of objects the thread waits on, as object ids), wait_all (read
through IsSleepingOnWaitAll in kernel.cpp), together with the wait_set_output
flag and the operations SetWaitSynchronizationResult and
SetWaitSynchronizationOutput used by kernel.cpp.  The output and resultSet
fields record the effect of those two operations; ResumeFromWait is modelled
as setting the status to ready. -/
structure ThreadData where
  currentPriority : Int
  status : ThreadStatus
  waitObjects : List Nat
  waitAll : Bool
  waitSetOutput : Bool
  output : Option Int
  resultSet : Bool
  deriving DecidableEq, Repr

/-- State of the kernel world: the data of every object (by object id), the
waiting_threads list of every WaitObject (thread ids, insertion order), and
the data of every thread (by thread id). -/
structure KState where
  objData : Nat → ObjData
  waitList : Nat → List Nat
  threads : Nat → ThreadData

/-- Replace the data of one object. -/
def KState.setObj (st : KState) (oid : Nat) (d : ObjData) : KState :=
  { st with objData := fun o => if o = oid then d else st.objData o }

/-- Replace the wait list of one object. -/
def KState.setWaitList (st : KState) (oid : Nat) (wl : List Nat) : KState :=
  { st with waitList := fun o => if o = oid then wl else st.waitList o }

/-- Replace the data of one thread. -/
def KState.setThread (st : KState) (tid : Nat) (t : ThreadData) : KState :=
  { st with threads := fun u => if u = tid then t else st.threads u }

/-- Lowest (numerically largest) thread priority.  Modelled from the spec:
thread.h is not among the available sources; CTR-OS thread priorities span
0..63, so THREADPRIO_LOWEST is 63 (kernel.cpp initializes the candidate
priority of the selection loop to THREADPRIO_LOWEST + 1). -/
def THREADPRIO_LOWEST : Int := 63

/-- First step of WaitObject::GetHighestPriorityReadyThread (kernel.cpp):
remove from the wait list every thread whose status is RUNNING, READY or
DEAD (boost remove_erase_if keeps the complement). -/
def purgeResolved (threads : Nat → ThreadData) (wl : List Nat) : List Nat :=
  wl.filter fun tid =>
    !((threads tid).status == ThreadStatus.running ||
      (threads tid).status == ThreadStatus.ready ||
      (threads tid).status == ThreadStatus.dead)

/-- Per-candidate readiness test of GetHighestPriorityReadyThread
(kernel.cpp): none of the objects in the wait_objects list of the thread
currently reports ShouldWait. -/
def readyToRun (st : KState) (tid : Nat) : Bool :=
  (st.threads tid).waitObjects.all fun oid => !(st.objData oid).shouldWait

/-- Selection loop of GetHighestPriorityReadyThread (kernel.cpp): scan the
wait list; skip a thread whose current_priority is at least the candidate
priority; a ready thread with strictly lower priority becomes the new
candidate. -/
def selectCandidate (st : KState) : List Nat → Option Nat → Int → Option Nat
  | [], candidate, _ => candidate
  | tid :: rest, candidate, candidatePriority =>
    if candidatePriority ≤ (st.threads tid).currentPriority then
      selectCandidate st rest candidate candidatePriority
    else if readyToRun st tid then
      selectCandidate st rest (some tid) (st.threads tid).currentPriority
    else
      selectCandidate st rest candidate candidatePriority

/-- WaitObject::GetHighestPriorityReadyThread (kernel.cpp): purge resolved
threads from the wait list (a mutation of the object), return none when the
object itself still reports ShouldWait, otherwise run the selection loop
starting from THREADPRIO_LOWEST + 1. -/
def KState.getHighestPriorityReadyThread (st : KState) (oid : Nat) : KState × Option Nat :=
  let wl := purgeResolved st.threads (st.waitList oid)
  let st1 := st.setWaitList oid wl
  if (st1.objData oid).shouldWait then (st1, none)
  else (st1, selectCandidate st1 wl none (THREADPRIO_LOWEST + 1))

/-- Acquire the object oid inside the state (none models an assertion
failure inside the Acquire of the object). -/
def KState.acquireAt (st : KState) (oid : Nat) : Option KState :=
  match (st.objData oid).acquire with
  | some d => some (st.setObj oid d)
  | none => none

/-- Wait-all branch of WakeupAllWaitingThreads (kernel.cpp): for every
object in the wait_objects list of the thread, call Acquire on it and
RemoveWaitingThread (std::find followed by erase removes the first
occurrence, modelled by List.erase). -/
def acquireAllAndRemove (tid : Nat) : List Nat → KState → Option KState
  | [], st => some st
  | oid :: rest, st =>
    match st.acquireAt oid with
    | none => none
    | some st1 => acquireAllAndRemove tid rest (st1.setWaitList oid ((st1.waitList oid).erase tid))

/-- Index of this object inside the wait_objects list of a thread
(Thread::GetWaitObjectIndex).  Modelled from the spec: thread.h is not among
the available sources; the spec says the index of this object within
wait_objects is reported. -/
def getWaitObjectIndex (t : ThreadData) (oid : Nat) : Int :=
  Int.ofNat (t.waitObjects.indexOf oid)

/-- Body of one iteration of WaitObject::WakeupAllWaitingThreads
(kernel.cpp) for the selected thread: when the thread is not sleeping on
wait-all, Acquire this object only and, when wait_set_output is set, record
the index of this object and clear the flag; when it is sleeping on
wait-all, Acquire every object of its wait_objects list, remove the thread
from each of their wait lists and clear the list.  In both cases set the
wait result to success and resume the thread. -/
def wakeupOne (st : KState) (oid : Nat) (tid : Nat) : Option KState :=
  let t := st.threads tid
  let after : Option KState :=
    if !t.waitAll then
      match st.acquireAt oid with
      | none => none
      | some st1 =>
        if t.waitSetOutput then
          some (st1.setThread tid
            { t with waitSetOutput := false, output := some (getWaitObjectIndex t oid) })
        else some st1
    else
      match acquireAllAndRemove tid t.waitObjects st with
      | none => none
      | some st1 => some (st1.setThread tid { st1.threads tid with waitObjects := [] })
  match after with
  | none => none
  | some st2 =>
    let t2 := st2.threads tid
    some (st2.setThread tid { t2 with resultSet := true, status := ThreadStatus.ready })

/-- Loop of WaitObject::WakeupAllWaitingThreads (kernel.cpp), with explicit
fuel; the returned list is the order in which threads were resumed.  The C++
while loop terminates because every iteration resumes one waiter, which the
purge of the next GetHighestPriorityReadyThread call then drops from the
wait list, so the initial wait list length plus one bounds the number of
iterations. -/
def wakeupLoop (oid : Nat) : Nat → KState → Option (KState × List Nat)
  | 0, st => some (st, [])
  | fuel + 1, st =>
    match st.getHighestPriorityReadyThread oid with
    | (st1, none) => some (st1, [])
    | (st1, some tid) =>
      match wakeupOne st1 oid tid with
      | none => none
      | some st2 =>
        match wakeupLoop oid fuel st2 with
        | none => none
        | some (st3, rest) => some (st3, tid :: rest)

/-- WaitObject::WakeupAllWaitingThreads (kernel.cpp). -/
def KState.wakeupAllWaitingThreads (st : KState) (oid : Nat) : Option (KState × List Nat) :=
  wakeupLoop oid ((st.waitList oid).length + 1) st

/-- Event::Create (event.cpp): signaled starts false; a Pulse reset type hits
UNIMPLEMENTED(), which aborts (modelled by none). -/
def eventCreate (resetType : ResetType) : Option ObjData :=
  if resetType = ResetType.pulse then none
  else some (.event resetType false)

/-- Event::Signal (event.cpp): set signaled to true, then run
WakeupAllWaitingThreads.  Defined for an object id holding an event. -/
def eventSignal (st : KState) (oid : Nat) : Option (KState × List Nat) :=
  match st.objData oid with
  | .event resetType _ =>
      (st.setObj oid (.event resetType true)).wakeupAllWaitingThreads oid
  | _ => none

/-- Event::Clear (event.cpp): force signaled to false; no wakeup. -/
def eventClear (st : KState) (oid : Nat) : KState :=
  match st.objData oid with
  | .event resetType _ => st.setObj oid (.event resetType false)
  | _ => st

/-- KernelSystem::CreateSemaphore (semaphore.cpp): fail with
ERR_INVALID_COMBINATION_KERNEL when initial_count > max_count, otherwise
build the semaphore with the given counts. -/
def createSemaphore (initialCount maxCount : Int) : Except KError ObjData :=
  if initialCount > maxCount then .error .invalidCombination
  else .ok (.semaphore initialCount maxCount)

/-- Semaphore::Release (semaphore.cpp): when max_count - available_count <
release_count return ERR_OUT_OF_RANGE_KERNEL and leave the state untouched;
otherwise add release_count to available_count, run WakeupAllWaitingThreads
and return the previous count.  Defined for an object id holding a
semaphore. -/
def semaphoreRelease (st : KState) (oid : Nat) (releaseCount : Int) :
    Option (KState × Except KError Int) :=
  match st.objData oid with
  | .semaphore availableCount maxCount =>
      if maxCount - availableCount < releaseCount then some (st, .error .outOfRange)
      else
        let st1 := st.setObj oid (.semaphore (availableCount + releaseCount) maxCount)
        match st1.wakeupAllWaitingThreads oid with
        | none => none
        | some (st2, _) => some (st2, .ok availableCount)
  | _ => none

/-- TranslateHLERequest (server_session.cpp): a stub that always returns
RESULT_SUCCESS (multiple concurrent processes are not supported yet). -/
def translateHLERequest : Except KError Unit := .ok ()

/-- ServerSession::HandleSyncRequest (server_session.cpp): when an HLE
handler is attached, run TranslateHLERequest (returning its error if it
fails) and invoke the handler (whose HandleSyncRequest returns void, so no
result flows back); then, in every non-error case, set signaled to true, run
WakeupAllWaitingThreads and return RESULT_SUCCESS.  The result records the
final state, the list of resumed threads, whether the handler was invoked,
and the returned code. -/
def handleSyncRequest (st : KState) (oid : Nat) :
    Option (KState × List Nat × Bool × Except KError Unit) :=
  match st.objData oid with
  | .serverSession _ hasHandler =>
      match (if hasHandler then translateHLERequest else .ok ()) with
      | .error e => some (st, [], false, .error e)
      | .ok _ =>
        let st1 := st.setObj oid (.serverSession true hasHandler)
        match st1.wakeupAllWaitingThreads oid with
        | none => none
        | some (st2, trace) => some (st2, trace, hasHandler, .ok ())
  | _ => none

/-- ServerSession::CreateSessionPair via ServerSession::Create
(server_session.cpp): the server session starts with signaled false and owns
the optional handler; the client session keeps a non-owning reference to it.
Only the server session carries kernel-visible state here. -/
def createServerSession (hasHandler : Bool) : ObjData :=
  .serverSession false hasHandler

/-- State around one ClientPort/ServerPort pair (client_port.h fields
max_sessions and active_sessions, u32 in the source; server_port.cpp
CreatePortPair stores the optional HLE handler on the server port).  The
kernel world holds the ServerPort object and its wait list; nextId is the
allocation counter for fresh session object ids (a fresh SharedPtr in the
source); notifiedSessions records every ClientConnected call made to the
HLE handler. -/
structure PortState where
  kst : KState
  serverPortId : Nat
  maxSessions : Nat
  activeSessions : Nat
  hasHandler : Bool
  nextId : Nat
  notifiedSessions : List Nat

/-- ClientPort::Connect (client_port.cpp): the active_sessions >=
max_sessions rejection path is commented out (a no-op), so active_sessions
is always incremented; a fresh session pair is created inheriting the HLE
handler of the port; when a handler is present it is notified through
ClientConnected; the new ServerSession is appended to pending_sessions of
the ServerPort; WakeupAllWaitingThreads runs on the ServerPort; the
ClientSession (modelled by its fresh id) is returned without blocking. -/
def clientPortConnect (ps : PortState) : Option (PortState × Nat) :=
  let ssid := ps.nextId
  let csid := ps.nextId + 1
  let kst1 := ps.kst.setObj ssid (createServerSession ps.hasHandler)
  let notified :=
    if ps.hasHandler then ps.notifiedSessions ++ [ssid] else ps.notifiedSessions
  let kst2 :=
    match kst1.objData ps.serverPortId with
    | .serverPort pendingSessions =>
        kst1.setObj ps.serverPortId (.serverPort (pendingSessions ++ [ssid]))
    | _ => kst1
  match kst2.wakeupAllWaitingThreads ps.serverPortId with
  | none => none
  | some (kst3, _) =>
      some ({ ps with
              activeSessions := ps.activeSessions + 1,
              kst := kst3,
              nextId := ps.nextId + 2,
              notifiedSessions := notified }, csid)

/-- Capacity of the handle table.  Modelled from the spec: kernel.h is not
among the available sources; the spec fixes the capacity at 2 to the 15. -/
def MAX_COUNT : Nat := 2 ^ 15

/-- Slot of a handle.  Modelled from the spec: kernel.h is not among the
available sources; a handle is generation bitor (slot shifted left by
15). -/
def getSlot (handle : Nat) : Nat := handle >>> 15

/-- Generation of a handle (the low 15 bits).  Modelled from the spec:
kernel.h is not among the available sources. -/
def getGeneration (handle : Nat) : Nat := handle % 2 ^ 15

/-- Reserved pseudo-handle for the current thread.  Modelled from the spec:
kernel.h is not among the available sources; CTR-OS reserves the value
0xFFFF8000. -/
def currentThreadHandle : Nat := 0xFFFF8000

/-- Reserved pseudo-handle for the current process.  Modelled from the spec:
kernel.h is not among the available sources; CTR-OS reserves the value
0xFFFF8001. -/
def currentProcessHandle : Nat := 0xFFFF8001

/-- Result of a generic handle lookup: one of the two process-wide
singletons, or an object stored in the table (by its object id). -/
inductive KObjRef
  | currentThreadObj
  | currentProcessObj
  | tableObj (id : Nat)
  deriving DecidableEq, Repr

/-- HandleTable (kernel.cpp/kernel.h): parallel arrays objects[] and
generations[] (modelled as functions on slot indices; entries at or beyond
MAX_COUNT are never read because every access first checks the slot bound),
the u16 next_generation counter and the free-list head next_free_slot.
Objects are identified by ids. -/
structure HandleTable where
  objects : Nat → Option Nat
  generations : Nat → Nat
  nextGeneration : Nat
  nextFreeSlot : Nat

/-- HandleTable::Clear (kernel.cpp): drop every object and reset the
embedded free list to identity order (generations[i] = i + 1),
next_free_slot = 0. -/
def HandleTable.clear (t : HandleTable) : HandleTable :=
  { t with
    objects := fun _ => none,
    generations := fun i => i + 1,
    nextFreeSlot := 0 }

/-- HandleTable::HandleTable (kernel.cpp): next_generation = 1, then
Clear. -/
def HandleTable.initial : HandleTable :=
  HandleTable.clear { objects := fun _ => none, generations := fun _ => 0,
                      nextGeneration := 1, nextFreeSlot := 0 }

/-- HandleTable::Create (kernel.cpp): pop the head of the free list (fail
with ERR_OUT_OF_HANDLES when no slot is free), take the next generation
(skipping 0 on wraparound at 2 to the 15), store the object and build the
handle as generation bitor (slot shifted left by 15). -/
def HandleTable.create (t : HandleTable) (obj : Nat) : HandleTable × Except KError Nat :=
  let slot := t.nextFreeSlot
  if MAX_COUNT ≤ slot then (t, .error .outOfHandles)
  else
    let nextFree := t.generations slot
    let generation := t.nextGeneration
    let ng := generation + 1
    let t2 : HandleTable :=
      { objects := fun i => if i = slot then some obj else t.objects i,
        generations := fun i => if i = slot then generation else t.generations i,
        nextGeneration := if 2 ^ 15 ≤ ng then 1 else ng,
        nextFreeSlot := nextFree }
    (t2, .ok (generation ||| (slot <<< 15)))

/-- HandleTable::IsValid (kernel.cpp): the slot is in range, the slot holds
an object, and the stored generation matches the generation of the handle.
There is no special case for the pseudo-handles. -/
def HandleTable.isValid (t : HandleTable) (handle : Nat) : Bool :=
  decide (getSlot handle < MAX_COUNT) && (t.objects (getSlot handle)).isSome &&
    (t.generations (getSlot handle) == getGeneration handle)

/-- HandleTable::Close (kernel.cpp): fail on an invalid handle; otherwise
clear the slot, store the old free-list head in generations[slot] and make
the slot the new head. -/
def HandleTable.close (t : HandleTable) (handle : Nat) : HandleTable × Except KError Unit :=
  if !t.isValid handle then (t, .error .invalidHandle)
  else
    let slot := getSlot handle
    ({ t with
        objects := fun i => if i = slot then none else t.objects i,
        generations := fun i => if i = slot then t.nextFreeSlot else t.generations i,
        nextFreeSlot := slot }, .ok ())

/-- HandleTable::GetGeneric (kernel.cpp): the pseudo-handles resolve to the
process-wide singletons before any table lookup; otherwise an invalid
handle yields nullptr and a valid one yields the stored object. -/
def HandleTable.getGeneric (t : HandleTable) (handle : Nat) : Option KObjRef :=
  if handle = currentThreadHandle then some KObjRef.currentThreadObj
  else if handle = currentProcessHandle then some KObjRef.currentProcessObj
  else if !t.isValid handle then none
  else match t.objects (getSlot handle) with
    | some oid => some (KObjRef.tableObj oid)
    | none => none

/-- Available count of an object when it is a semaphore (0 otherwise);
observation function used to state semaphore invariants. -/
def ObjData.semAvail : ObjData → Int
  | .semaphore availableCount _ => availableCount
  | _ => 0

/-- Max count of an object when it is a semaphore (0 otherwise). -/
def ObjData.semMax : ObjData → Int
  | .semaphore _ maxCount => maxCount
  | _ => 0

/-- Pending session queue of an object when it is a server port ([]
otherwise). -/
def ObjData.portPending : ObjData → List Nat
  | .serverPort pendingSessions => pendingSessions
  | _ => []

/-- Iterate Acquire n times (used to state the sticky-event property for any
number of acquisitions). -/
def acquireN : Nat → ObjData → Option ObjData
  | 0, d => some d
  | n + 1, d =>
    match d.acquire with
    | none => none
    | some d' => acquireN n d'

/-- Componentwise facts preserved by the wakeup machinery: a semaphore never
gains available count (Acquire only decrements), keeps its max count and its
nonnegativity, and a server port keeps its pending queue. -/
def objPreserved (st st' : KState) : Prop :=
  ∀ o : Nat,
    (st'.objData o).semAvail ≤ (st.objData o).semAvail ∧
    (st'.objData o).semMax = (st.objData o).semMax ∧
    (0 ≤ (st.objData o).semAvail → 0 ≤ (st'.objData o).semAvail) ∧
    (st'.objData o).portPending = (st.objData o).portPending

/-- Thread blocked in WaitSync on the single object 0 with the given
priority (wait-any, no output reporting): the configuration of the
priority-ordering scenario of the spec. -/
def waitingThread (p : Int) : ThreadData :=
  { currentPriority := p, status := ThreadStatus.waitSync, waitObjects := [0],
    waitAll := false, waitSetOutput := false, output := none, resultSet := false }

/-- Scenario state for the priority-ordering property: a sticky event
(object 0), three threads 0, 1, 2 with priorities 5, 1, 3 waiting on it in
this insertion order. -/
def c1State : KState :=
  { objData := fun _ => ObjData.event ResetType.sticky false,
    waitList := fun o => if o = 0 then [0, 1, 2] else [],
    threads := fun tid =>
      if tid = 0 then waitingThread 5 else if tid = 1 then waitingThread 1 else waitingThread 3 }

/-- The priority-ordering scenario state after the sticky event has been
signaled (the state in which the selection loop runs). -/
def c1Sig : KState := c1State.setObj 0 (ObjData.event ResetType.sticky true)

/-- Scenario state for the wait-all property: thread 0 waits with wait_all on
objects 0 (a sticky event A) and 1 (a one-shot event B), both unsignaled. -/
def c2State : KState :=
  { objData := fun o =>
      if o = 0 then ObjData.event ResetType.sticky false else ObjData.event ResetType.oneShot false,
    waitList := fun o => if o ≤ 1 then [0] else [],
    threads := fun _ =>
      { currentPriority := 1, status := ThreadStatus.waitSync, waitObjects := [0, 1],
        waitAll := true, waitSetOutput := false, output := none, resultSet := false } }

/-- Same wait-all scenario after event A (object 0) has been signaled. -/
def c2Both : KState := c2State.setObj 0 (ObjData.event ResetType.sticky true)

/-- Scenario state for HandleSyncRequest: object 0 is a server session with
an attached HLE handler, unsignaled, no waiting threads. -/
def c3State : KState :=
  { objData := fun _ => ObjData.serverSession false true,
    waitList := fun _ => [],
    threads := fun _ => waitingThread 1 }

/-- Scenario state for Release: object 0 is a semaphore with
available_count 1, max_count 5 and no waiting threads. -/
def c7State : KState :=
  { objData := fun _ => ObjData.semaphore 1 5,
    waitList := fun _ => [],
    threads := fun _ => waitingThread 1 }

/-- Scenario port for Connect: a port pair with max_sessions 1, no HLE
handler, no pending sessions, no waiting threads; fresh ids start at 10. -/
def c8Port : PortState :=
  { kst := { objData := fun _ => ObjData.serverPort [],
             waitList := fun _ => [],
             threads := fun _ => waitingThread 1 },
    serverPortId := 0, maxSessions := 1, activeSessions := 0, hasHandler := false,
    nextId := 10, notifiedSessions := [] }

/-- Scenario state for the one-shot event: object 0 is a one-shot event,
unsignaled, with no waiting threads. -/
def c9State : KState :=
  { objData := fun _ => ObjData.event ResetType.oneShot false,
    waitList := fun _ => [],
    threads := fun _ => waitingThread 1 }

theorem setObj_objData (st : KState) (oid : Nat) (d : ObjData) (o : Nat) :
    (st.setObj oid d).objData o = if o = oid then d else st.objData o := rfl

theorem setWaitList_objData (st : KState) (oid : Nat) (wl : List Nat) :
    (st.setWaitList oid wl).objData = st.objData := rfl

theorem setThread_objData (st : KState) (tid : Nat) (t : ThreadData) :
    (st.setThread tid t).objData = st.objData := rfl

theorem objPreserved_refl (st : KState) : objPreserved st st :=
  fun _ => ⟨le_refl _, rfl, fun h => h, rfl⟩

theorem objPreserved_trans {s1 s2 s3 : KState}
    (h12 : objPreserved s1 s2) (h23 : objPreserved s2 s3) : objPreserved s1 s3 := by
  intro o
  obtain ⟨a1, b1, c1, d1⟩ := h12 o
  obtain ⟨a2, b2, c2, d2⟩ := h23 o
  exact ⟨le_trans a2 a1, b2.trans b1, fun h => c2 (c1 h), d2.trans d1⟩

theorem objPreserved_of_objData_eq {s1 s2 : KState} (h : s2.objData = s1.objData) :
    objPreserved s1 s2 := by
  intro o
  rw [h]
  exact ⟨le_refl _, rfl, fun h => h, rfl⟩

theorem acquire_facts {d d' : ObjData} (h : d.acquire = some d') :
    d'.semAvail ≤ d.semAvail ∧ d'.semMax = d.semMax ∧
    (0 ≤ d.semAvail → 0 ≤ d'.semAvail) ∧ d'.portPending = d.portPending := by
  cases d with
  | event rt s =>
    cases s with
    | false => simp [ObjData.acquire] at h
    | true =>
      simp [ObjData.acquire] at h
      subst h
      exact ⟨le_refl _, rfl, fun h => h, rfl⟩
  | semaphore a m =>
    simp [ObjData.acquire] at h
    by_cases ha : a ≤ 0
    · rw [if_pos ha] at h
      subst h
      exact ⟨le_refl _, rfl, fun h => h, rfl⟩
    · rw [if_neg ha] at h
      subst h
      refine ⟨by simp only [ObjData.semAvail]; omega, rfl, ?_, rfl⟩
      simp only [ObjData.semAvail]
      omega
  | serverPort ps =>
    simp [ObjData.acquire] at h
    obtain ⟨-, h⟩ := h
    subst h
    exact ⟨le_refl _, rfl, fun h => h, rfl⟩
  | serverSession s hh =>
    cases s with
    | false => simp [ObjData.acquire] at h
    | true =>
      simp [ObjData.acquire] at h
      subst h
      exact ⟨le_refl _, rfl, fun h => h, rfl⟩

theorem acquireAt_objPreserved {st st' : KState} {oid : Nat}
    (h : st.acquireAt oid = some st') : objPreserved st st' := by
  unfold KState.acquireAt at h
  cases hacq : (st.objData oid).acquire with
  | none => rw [hacq] at h; exact absurd h (by simp)
  | some d =>
    rw [hacq] at h
    have hst : st.setObj oid d = st' := by
      simpa using h
    subst hst
    intro o
    by_cases ho : o = oid
    · subst ho
      rw [setObj_objData, if_pos rfl]
      exact acquire_facts hacq
    · rw [setObj_objData, if_neg ho]
      exact ⟨le_refl _, rfl, fun h => h, rfl⟩

theorem acquireAllAndRemove_objPreserved {tid : Nat} :
    ∀ (os : List Nat) (st st' : KState),
      acquireAllAndRemove tid os st = some st' → objPreserved st st'
  | [], st, st', h => by
    simp [acquireAllAndRemove] at h
    subst h
    exact objPreserved_refl st
  | o :: rest, st, st', h => by
    unfold acquireAllAndRemove at h
    cases hacq : st.acquireAt o with
    | none => rw [hacq] at h; exact absurd h (by simp)
    | some st1 =>
      rw [hacq] at h
      have h1 := acquireAt_objPreserved hacq
      have h2 := acquireAllAndRemove_objPreserved rest _ _ h
      exact objPreserved_trans h1
        (objPreserved_trans (objPreserved_of_objData_eq (setWaitList_objData _ _ _)) h2)

theorem wakeupOne_objPreserved {st st' : KState} {oid tid : Nat}
    (h : wakeupOne st oid tid = some st') : objPreserved st st' := by
  unfold wakeupOne at h
  cases hall : (st.threads tid).waitAll with
  | false =>
    simp only [hall, Bool.not_false, if_true] at h
    cases hacq : st.acquireAt oid with
    | none => rw [hacq] at h; exact absurd h (by simp)
    | some st1 =>
      rw [hacq] at h
      have h1 := acquireAt_objPreserved hacq
      by_cases hout : (st.threads tid).waitSetOutput = true
      · simp only [hout, if_true, Option.some.injEq] at h
        subst h
        exact objPreserved_trans h1 (objPreserved_of_objData_eq (by rfl))
      · simp only [hout, if_false, Option.some.injEq, Bool.false_eq_true] at h
        subst h
        exact objPreserved_trans h1 (objPreserved_of_objData_eq (by rfl))
  | true =>
    simp only [hall, Bool.not_true, Bool.false_eq_true, if_false] at h
    cases hacq : acquireAllAndRemove tid (st.threads tid).waitObjects st with
    | none => rw [hacq] at h; exact absurd h (by simp)
    | some st1 =>
      rw [hacq] at h
      simp only [Option.some.injEq] at h
      subst h
      have h1 := acquireAllAndRemove_objPreserved _ _ _ hacq
      exact objPreserved_trans h1 (objPreserved_of_objData_eq (by rfl))

theorem ghprt_fst (st : KState) (oid : Nat) :
    (st.getHighestPriorityReadyThread oid).1 =
      st.setWaitList oid (purgeResolved st.threads (st.waitList oid)) := by
  simp only [KState.getHighestPriorityReadyThread]
  split <;> rfl

theorem wakeupLoop_objPreserved {oid : Nat} :
    ∀ (fuel : Nat) (st st' : KState) (tr : List Nat),
      wakeupLoop oid fuel st = some (st', tr) → objPreserved st st'
  | 0, st, st', tr, h => by
    simp [wakeupLoop] at h
    rw [← h.1]
    exact objPreserved_refl st
  | fuel + 1, st, st', tr, h => by
    unfold wakeupLoop at h
    cases hg : st.getHighestPriorityReadyThread oid with
    | mk st1 cand =>
      rw [hg] at h
      have hpres1 : objPreserved st st1 := by
        have : st1 = (st.getHighestPriorityReadyThread oid).1 := by rw [hg]
        rw [this, ghprt_fst]
        exact objPreserved_of_objData_eq (setWaitList_objData _ _ _)
      cases cand with
      | none =>
        simp only [Option.some.injEq, Prod.mk.injEq] at h
        rw [← h.1]
        exact hpres1
      | some tid =>
        simp only [] at h
        cases hw : wakeupOne st1 oid tid with
        | none => rw [hw] at h; exact absurd h (by simp)
        | some st2 =>
          rw [hw] at h
          simp only [] at h
          cases hl : wakeupLoop oid fuel st2 with
          | none => rw [hl] at h; exact absurd h (by simp)
          | some p =>
            rw [hl] at h
            simp only [Option.some.injEq, Prod.mk.injEq] at h
            have h3 := wakeupLoop_objPreserved fuel st2 p.1 p.2 (by rw [hl])
            rw [← h.1]
            exact objPreserved_trans hpres1 (objPreserved_trans (wakeupOne_objPreserved hw) h3)

theorem wakeupAll_objPreserved (st st' : KState) (oid : Nat) (tr : List Nat)
    (h : st.wakeupAllWaitingThreads oid = some (st', tr)) : objPreserved st st' :=
  wakeupLoop_objPreserved _ _ _ _ h

theorem semaphoreRelease_eq (st : KState) (oid : Nat) (n a m : Int)
    (h : st.objData oid = ObjData.semaphore a m) :
    semaphoreRelease st oid n =
      if m - a < n then some (st, Except.error KError.outOfRange)
      else
        match (st.setObj oid (ObjData.semaphore (a + n) m)).wakeupAllWaitingThreads oid with
        | none => none
        | some (st2, _) => some (st2, Except.ok a) := by
  unfold semaphoreRelease
  rw [h]

theorem handleSyncRequest_eq (st : KState) (oid : Nat) (sig hasHandler : Bool)
    (h : st.objData oid = ObjData.serverSession sig hasHandler) :
    handleSyncRequest st oid =
      match (st.setObj oid (ObjData.serverSession true hasHandler)).wakeupAllWaitingThreads oid with
      | none => none
      | some (st2, trace) => some (st2, trace, hasHandler, Except.ok ()) := by
  unfold handleSyncRequest
  rw [h]
  cases hasHandler <;> rfl

/-- C5, counterexample: Semaphore::Acquire called with available_count = 0,
where ShouldWait holds, is not detected by an assertion: it silently returns
and leaves the semaphore unchanged, refuting the claim that every concrete
WaitObject kind asserts in this situation. -/
theorem C5_counterexample :
    (ObjData.semaphore 0 1).shouldWait = true ∧
    (ObjData.semaphore 0 1).acquire = some (ObjData.semaphore 0 1) := by
  exact ⟨by decide, by decide⟩

/-- C5 (amended): calling Acquire in a state where ShouldWait() holds is
detected by an assertion (modelled by none) for Event, ServerPort and
ServerSession; Semaphore::Acquire has no assertion and instead silently
returns, preserving the state. -/
theorem C5_acquire_assertion (d : ObjData) (h : d.shouldWait = true) :
    (match d with
     | ObjData.semaphore _ _ => d.acquire = some d
     | _ => d.acquire = none) := by
  cases d with
  | event rt s =>
    cases s with
    | false => simp [ObjData.acquire]
    | true => exact absurd h (by simp [ObjData.shouldWait])
  | semaphore a m =>
    simp only [ObjData.shouldWait, decide_eq_true_eq] at h
    simp [ObjData.acquire, if_pos h]
  | serverPort ps =>
    simp only [ObjData.shouldWait] at h
    simp [ObjData.acquire, h]
  | serverSession s hh =>
    cases s with
    | false => simp [ObjData.acquire]
    | true => exact absurd h (by simp [ObjData.shouldWait])

theorem C5_acquire_assertion_witness :
    (ObjData.event ResetType.oneShot false).acquire = none ∧
    (ObjData.semaphore 0 5).acquire = some (ObjData.semaphore 0 5) :=
  ⟨C5_acquire_assertion (ObjData.event ResetType.oneShot false) (by decide),
   C5_acquire_assertion (ObjData.semaphore 0 5) (by decide)⟩

/-- C9: a one-shot event, once signaled and then acquired once, reports
ShouldWait again (acquisition clears signaled); a sticky event stays
signaled (ShouldWait false) through any number of acquisitions; Clear
forces signaled to false while leaving every thread and every wait list
untouched (it wakes nobody). -/
theorem C9_event_reset_semantics :
    (∃ p, eventSignal c9State 0 = some p ∧
       (p.1.objData 0).acquire = some (ObjData.event ResetType.oneShot false) ∧
       (ObjData.event ResetType.oneShot false).shouldWait = true) ∧
    (∀ n : Nat,
       acquireN n (ObjData.event ResetType.sticky true) =
         some (ObjData.event ResetType.sticky true) ∧
       (ObjData.event ResetType.sticky true).shouldWait = false) ∧
    (∀ (st : KState) (oid : Nat) (rt : ResetType) (s : Bool),
       st.objData oid = ObjData.event rt s →
       (eventClear st oid).objData oid = ObjData.event rt false ∧
       (eventClear st oid).threads = st.threads ∧
       (eventClear st oid).waitList = st.waitList) := by
  refine ⟨⟨_, rfl, by decide, by decide⟩, ?_, ?_⟩
  · intro n
    refine ⟨?_, by decide⟩
    induction n with
    | zero => rfl
    | succ n ih => exact ih
  · intro st oid rt s h
    unfold eventClear
    rw [h]
    exact ⟨by rw [setObj_objData, if_pos rfl], rfl, rfl⟩

theorem C9_event_reset_semantics_witness :
    (eventClear c2State 0).objData 0 = ObjData.event ResetType.sticky false ∧
    (eventClear c2State 0).threads = c2State.threads ∧
    (eventClear c2State 0).waitList = c2State.waitList :=
  C9_event_reset_semantics.2.2 c2State 0 ResetType.sticky false rfl

/-- C10, counterexample: on the freshly constructed handle table, GetGeneric
resolves the CurrentThread pseudo-handle to the process-wide singleton, but
IsValid rejects that very same pseudo-handle: IsValid performs a plain table
lookup with no special case, refuting the claim that both lookups resolve
the pseudo-handles. -/
theorem C10_counterexample :
    HandleTable.initial.getGeneric currentThreadHandle = some KObjRef.currentThreadObj ∧
    HandleTable.initial.isValid currentThreadHandle = false := by
  exact ⟨rfl, by decide⟩

/-- C10 (amended): GetGeneric resolves the two reserved pseudo-handles
specially, bypassing the table and returning the process-wide singletons;
IsValid has no pseudo-handle case: it is a plain table lookup, and since the
slot encoded in either pseudo-handle is out of range it reports both
pseudo-handles invalid on every table. -/
theorem C10_pseudo_handles (t : HandleTable) :
    t.getGeneric currentThreadHandle = some KObjRef.currentThreadObj ∧
    t.getGeneric currentProcessHandle = some KObjRef.currentProcessObj ∧
    t.isValid currentThreadHandle = false ∧
    t.isValid currentProcessHandle = false := by
  refine ⟨rfl, ?_, ?_, ?_⟩
  · unfold HandleTable.getGeneric
    rw [if_neg (by decide), if_pos rfl]
  · unfold HandleTable.isValid
    rw [show decide (getSlot currentThreadHandle < MAX_COUNT) = false by decide]
    simp
  · unfold HandleTable.isValid
    rw [show decide (getSlot currentProcessHandle < MAX_COUNT) = false by decide]
    simp

/-- C4, counterexample: CreateSemaphore accepts a negative initial count
(since -1 > 0 is false) and produces a semaphore with available_count -1,
violating the claimed invariant 0 <= available_count at creation. -/
theorem C4_counterexample :
    createSemaphore (-1) 0 = Except.ok (ObjData.semaphore (-1) 0) ∧
    (ObjData.semaphore (-1) 0).semAvail < 0 := by
  exact ⟨rfl, by decide⟩

/-- C4 (amended): Create fails with InvalidCombination exactly when
initial_count > max_count; when additionally 0 <= initial_count, the
invariant 0 <= available_count <= max_count holds at creation, and it is
preserved by Acquire and by Release with a nonnegative release count
(including the wakeup the release performs). -/
theorem C4_semaphore_invariant :
    (∀ i m : Int,
       (i > m → createSemaphore i m = Except.error KError.invalidCombination) ∧
       (i ≤ m → createSemaphore i m = Except.ok (ObjData.semaphore i m))) ∧
    (∀ (a m : Int) (d' : ObjData), 0 ≤ a → a ≤ m →
       (ObjData.semaphore a m).acquire = some d' →
       0 ≤ d'.semAvail ∧ d'.semAvail ≤ m ∧ d'.semMax = m) ∧
    (∀ (st : KState) (oid : Nat) (n a m : Int) (st2 : KState) (r : Except KError Int),
       st.objData oid = ObjData.semaphore a m → 0 ≤ a → a ≤ m → 0 ≤ n →
       semaphoreRelease st oid n = some (st2, r) →
       0 ≤ (st2.objData oid).semAvail ∧ (st2.objData oid).semAvail ≤ m ∧
       (st2.objData oid).semMax = m) := by
  refine ⟨?_, ?_, ?_⟩
  · intro i m
    constructor
    · intro h
      unfold createSemaphore
      rw [if_pos h]
    · intro h
      unfold createSemaphore
      rw [if_neg (not_lt.mpr h)]
  · intro a m d' ha ham h
    simp only [ObjData.acquire, Option.some.injEq] at h
    subst h
    by_cases h0 : a ≤ 0
    · rw [if_pos h0]
      exact ⟨ha, ham, rfl⟩
    · rw [if_neg h0]
      exact ⟨show (0 : Int) ≤ a - 1 by omega, show a - 1 ≤ m by omega, rfl⟩
  · intro st oid n a m st2 r h ha ham hn hrel
    rw [semaphoreRelease_eq st oid n a m h] at hrel
    by_cases hg : m - a < n
    · rw [if_pos hg] at hrel
      simp only [Option.some.injEq, Prod.mk.injEq] at hrel
      rw [← hrel.1, h]
      exact ⟨ha, ham, rfl⟩
    · rw [if_neg hg] at hrel
      cases hw : (st.setObj oid (ObjData.semaphore (a + n) m)).wakeupAllWaitingThreads oid with
      | none => rw [hw] at hrel; exact absurd hrel (by simp)
      | some p =>
        rw [hw] at hrel
        simp only [Option.some.injEq, Prod.mk.injEq] at hrel
        obtain ⟨hst2, -⟩ := hrel
        subst hst2
        have hpres := wakeupAll_objPreserved _ p.1 _ p.2 (by rw [hw])
        obtain ⟨hle, hmax, hnn, -⟩ := hpres oid
        rw [setObj_objData, if_pos rfl] at hle hmax hnn
        have hle' : (p.1.objData oid).semAvail ≤ a + n := hle
        have hmax' : (p.1.objData oid).semMax = m := hmax
        have hnn' : 0 ≤ a + n → 0 ≤ (p.1.objData oid).semAvail := hnn
        exact ⟨hnn' (by omega), by omega, hmax'⟩

theorem C4_semaphore_invariant_witness :
    ∃ (st2 : KState) (r : Except KError Int),
      semaphoreRelease c7State 0 2 = some (st2, r) ∧
      0 ≤ (st2.objData 0).semAvail ∧ (st2.objData 0).semAvail ≤ 5 ∧
      (st2.objData 0).semMax = 5 :=
  ⟨_, _, rfl,
   C4_semaphore_invariant.2.2 c7State 0 2 1 5 _ _ rfl (by decide) (by decide) (by decide) rfl⟩

/-- C3, counterexample: on a server session with an attached HLE handler,
HandleSyncRequest invokes the handler but then still sets signaled to true
and returns RESULT_SUCCESS (the handler interface returns void, so no
handler result exists to return), refuting the claim that only a
handler-less session sets signaled and wakes waiters. -/
theorem C3_counterexample :
    ∃ p, handleSyncRequest c3State 0 = some p ∧
      p.2.2.1 = true ∧
      p.1.objData 0 = ObjData.serverSession true true ∧
      p.2.2.2 = Except.ok () := by
  exact ⟨_, rfl, rfl, rfl, rfl⟩

/-- C3 (amended): HandleSyncRequest delegates to the HLE handler exactly
when one is attached (the handler returns void, so its outcome is not
propagated), and in every successful run, with or without a handler, it
sets signaled to true, runs WakeupAllWaitingThreads on the session and
returns RESULT_SUCCESS. -/
theorem C3_handle_sync_request (st : KState) (oid : Nat) (sig hasHandler : Bool)
    (h : st.objData oid = ObjData.serverSession sig hasHandler) :
    ∀ (st2 : KState) (trace : List Nat) (invoked : Bool) (r : Except KError Unit),
      handleSyncRequest st oid = some (st2, trace, invoked, r) →
      invoked = hasHandler ∧ r = Except.ok () ∧
      (st.setObj oid (ObjData.serverSession true hasHandler)).wakeupAllWaitingThreads oid =
        some (st2, trace) := by
  intro st2 trace invoked r hreq
  rw [handleSyncRequest_eq st oid sig hasHandler h] at hreq
  cases hw : (st.setObj oid (ObjData.serverSession true hasHandler)).wakeupAllWaitingThreads oid with
  | none => rw [hw] at hreq; exact absurd hreq (by simp)
  | some p =>
    rw [hw] at hreq
    simp only [Option.some.injEq, Prod.mk.injEq] at hreq
    obtain ⟨h1, h2, h3, h4⟩ := hreq
    refine ⟨h3.symm, h4.symm, ?_⟩
    rw [← h1, ← h2]

theorem C3_handle_sync_request_witness :
    ∃ st2 trace invoked r, handleSyncRequest c3State 0 = some (st2, trace, invoked, r) ∧
      invoked = true ∧ r = Except.ok () :=
  ⟨_, _, _, _, rfl,
   (C3_handle_sync_request c3State 0 false true rfl _ _ _ _ rfl).1,
   (C3_handle_sync_request c3State 0 false true rfl _ _ _ _ rfl).2.1⟩

/-- C7: Release with max_count - available_count < n returns OutOfRange and
leaves the whole state unchanged; otherwise it adds n to available_count,
runs WakeupAllWaitingThreads on the semaphore, returns the pre-release
count, and the available count after the call never exceeds max_count. -/
theorem C7_semaphore_release (st : KState) (oid : Nat) (n a m : Int)
    (h : st.objData oid = ObjData.semaphore a m) :
    (m - a < n → semaphoreRelease st oid n = some (st, Except.error KError.outOfRange)) ∧
    (¬ m - a < n → ∀ (st2 : KState) (r : Except KError Int),
       semaphoreRelease st oid n = some (st2, r) →
       r = Except.ok a ∧
       (∃ trace,
          (st.setObj oid (ObjData.semaphore (a + n) m)).wakeupAllWaitingThreads oid =
            some (st2, trace)) ∧
       (st2.objData oid).semAvail ≤ m ∧ (st2.objData oid).semMax = m) := by
  constructor
  · intro hg
    rw [semaphoreRelease_eq st oid n a m h, if_pos hg]
  · intro hg st2 r hrel
    rw [semaphoreRelease_eq st oid n a m h, if_neg hg] at hrel
    cases hw : (st.setObj oid (ObjData.semaphore (a + n) m)).wakeupAllWaitingThreads oid with
    | none => rw [hw] at hrel; exact absurd hrel (by simp)
    | some p =>
      rw [hw] at hrel
      simp only [Option.some.injEq, Prod.mk.injEq] at hrel
      obtain ⟨hst2, hr⟩ := hrel
      subst hst2
      have hpres := wakeupAll_objPreserved _ p.1 _ p.2 (by rw [hw])
      obtain ⟨hle, hmax, -, -⟩ := hpres oid
      rw [setObj_objData, if_pos rfl] at hle hmax
      have hle' : (p.1.objData oid).semAvail ≤ a + n := hle
      have hmax' : (p.1.objData oid).semMax = m := hmax
      exact ⟨hr.symm, ⟨p.2, rfl⟩, by omega, hmax'⟩

theorem C7_semaphore_release_witness :
    semaphoreRelease c7State 0 6 = some (c7State, Except.error KError.outOfRange) ∧
    ∃ (st2 : KState) (r : Except KError Int),
      semaphoreRelease c7State 0 2 = some (st2, r) ∧ r = Except.ok 1 ∧
      (st2.objData 0).semAvail ≤ 5 :=
  ⟨(C7_semaphore_release c7State 0 6 1 5 rfl).1 (by decide),
   ⟨_, _, rfl,
    ((C7_semaphore_release c7State 0 2 1 5 rfl).2 (by decide) _ _ rfl).1,
    ((C7_semaphore_release c7State 0 2 1 5 rfl).2 (by decide) _ _ rfl).2.2.1⟩⟩

theorem getGeneration_mk (g s : Nat) (hg : g < 2 ^ 15) :
    getGeneration (g ||| (s <<< 15)) = g := by
  unfold getGeneration
  apply Nat.eq_of_testBit_eq
  intro i
  rw [Nat.testBit_mod_two_pow, Nat.testBit_lor, Nat.testBit_shiftLeft]
  by_cases hi : i < 15
  · simp [hi, Nat.not_le.mpr hi]
  · have h1 : Nat.testBit g i = false := by
      apply Nat.testBit_lt_two_pow
      calc g < 2 ^ 15 := hg
        _ ≤ 2 ^ i := Nat.pow_le_pow_right (by norm_num) (by omega)
    simp [hi, h1]

theorem getSlot_mk (g s : Nat) (hg : g < 2 ^ 15) :
    getSlot (g ||| (s <<< 15)) = s := by
  unfold getSlot
  apply Nat.eq_of_testBit_eq
  intro i
  rw [Nat.testBit_shiftRight, Nat.testBit_lor, Nat.testBit_shiftLeft]
  have h1 : Nat.testBit g (15 + i) = false := by
    apply Nat.testBit_lt_two_pow
    calc g < 2 ^ 15 := hg
      _ ≤ 2 ^ (15 + i) := Nat.pow_le_pow_right (by norm_num) (by omega)
  simp [h1]

theorem create_ok (t : HandleTable) (obj : Nat) (t' : HandleTable) (h : Nat)
    (hc : t.create obj = (t', Except.ok h)) :
    t.nextFreeSlot < MAX_COUNT ∧
    h = t.nextGeneration ||| (t.nextFreeSlot <<< 15) ∧
    t' = { objects := fun i => if i = t.nextFreeSlot then some obj else t.objects i,
           generations := fun i => if i = t.nextFreeSlot then t.nextGeneration else t.generations i,
           nextGeneration := if 2 ^ 15 ≤ t.nextGeneration + 1 then 1 else t.nextGeneration + 1,
           nextFreeSlot := t.generations t.nextFreeSlot } := by
  simp only [HandleTable.create] at hc
  by_cases hs : MAX_COUNT ≤ t.nextFreeSlot
  · rw [if_pos hs] at hc
    simp only [Prod.mk.injEq] at hc
    exact absurd hc.2 (by simp)
  · rw [if_neg hs] at hc
    simp only [Prod.mk.injEq, Except.ok.injEq] at hc
    exact ⟨Nat.lt_of_not_le hs, hc.2.symm, hc.1.symm⟩

theorem close_ok (t : HandleTable) (handle : Nat) (t' : HandleTable)
    (hc : t.close handle = (t', Except.ok ())) :
    t.isValid handle = true ∧
    t' = { t with
            objects := fun i => if i = getSlot handle then none else t.objects i,
            generations := fun i => if i = getSlot handle then t.nextFreeSlot else t.generations i,
            nextFreeSlot := getSlot handle } := by
  simp only [HandleTable.close] at hc
  by_cases hv : t.isValid handle = true
  · simp only [hv, Bool.not_true, Bool.false_eq_true, if_false, Prod.mk.injEq] at hc
    exact ⟨hv, hc.1.symm⟩
  · have hv2 : t.isValid handle = false := by
      cases hb : t.isValid handle
      · rfl
      · exact absurd hb hv
    rw [hv2] at hc
    simp only [Bool.not_false, if_true, Prod.mk.injEq] at hc
    exact absurd hc.2 (by simp)

/-- C6: on any table whose generation counter is in its maintained range
1 .. 2^15 - 1, a successful Create followed by a second successful Create
returns a distinct handle (the generation differs), and a successful Create
after Close of the first handle reuses the same slot while the stale first
handle fails IsValid (generation mismatch) and the new handle passes it. -/
theorem C6_handle_uniqueness_staleness (t : HandleTable) (o1 o2 : Nat)
    (t1 : HandleTable) (h1 : Nat)
    (hgenlo : 1 ≤ t.nextGeneration) (hgenhi : t.nextGeneration < 2 ^ 15)
    (hc1 : t.create o1 = (t1, Except.ok h1)) :
    (∀ (t2 : HandleTable) (h2 : Nat), t1.create o2 = (t2, Except.ok h2) → h1 ≠ h2) ∧
    (∀ (t1c t2 : HandleTable) (h2 : Nat),
       t1.close h1 = (t1c, Except.ok ()) →
       t1c.create o2 = (t2, Except.ok h2) →
       getSlot h2 = getSlot h1 ∧ t2.isValid h1 = false ∧ t2.isValid h2 = true) := by
  obtain ⟨hs1, hh1, ht1⟩ := create_ok t o1 t1 h1 hc1
  have hgen1 : getGeneration h1 = t.nextGeneration := by
    rw [hh1]; exact getGeneration_mk _ _ hgenhi
  have hslot1 : getSlot h1 = t.nextFreeSlot := by
    rw [hh1]; exact getSlot_mk _ _ hgenhi
  have hg2lt : (if 2 ^ 15 ≤ t.nextGeneration + 1 then 1 else t.nextGeneration + 1) < 2 ^ 15 := by
    split <;> omega
  have hg2ne : (if 2 ^ 15 ≤ t.nextGeneration + 1 then 1 else t.nextGeneration + 1)
      ≠ t.nextGeneration := by
    split <;> omega
  have hng : t1.nextGeneration =
      if 2 ^ 15 ≤ t.nextGeneration + 1 then 1 else t.nextGeneration + 1 := by
    rw [ht1]
  constructor
  · intro t2 h2 hc2
    obtain ⟨hs2, hh2, ht2⟩ := create_ok t1 o2 t2 h2 hc2
    intro heq
    have e1 : getGeneration h2 = t1.nextGeneration := by
      rw [hh2]
      exact getGeneration_mk _ _ (by rw [hng]; exact hg2lt)
    rw [← heq, hgen1, hng] at e1
    exact hg2ne e1.symm
  · intro t1c t2 h2 hcl hc2
    obtain ⟨hval, htc⟩ := close_ok t1 h1 t1c hcl
    obtain ⟨hs2, hh2, ht2⟩ := create_ok t1c o2 t2 h2 hc2
    have htcng : t1c.nextGeneration =
        if 2 ^ 15 ≤ t.nextGeneration + 1 then 1 else t.nextGeneration + 1 := by
      rw [htc]; exact hng
    have htcslot : t1c.nextFreeSlot = t.nextFreeSlot := by
      rw [htc]; exact hslot1
    have hslot2 : getSlot h2 = t.nextFreeSlot := by
      rw [hh2, getSlot_mk _ _ (by rw [htcng]; exact hg2lt)]
      exact htcslot
    have hgen2 : getGeneration h2 = t1c.nextGeneration := by
      rw [hh2]
      exact getGeneration_mk _ _ (by rw [htcng]; exact hg2lt)
    have hgens2 : t2.generations t.nextFreeSlot = t1c.nextGeneration := by
      rw [ht2]
      show (if t.nextFreeSlot = t1c.nextFreeSlot then t1c.nextGeneration
            else t1c.generations t.nextFreeSlot) = t1c.nextGeneration
      rw [if_pos htcslot.symm]
    have hobjs2 : t2.objects t.nextFreeSlot = some o2 := by
      rw [ht2]
      show (if t.nextFreeSlot = t1c.nextFreeSlot then some o2
            else t1c.objects t.nextFreeSlot) = some o2
      rw [if_pos htcslot.symm]
    refine ⟨by rw [hslot2, hslot1], ?_, ?_⟩
    · unfold HandleTable.isValid
      rw [hslot1, hgen1, hgens2, hobjs2, htcng]
      have hb : ((if 2 ^ 15 ≤ t.nextGeneration + 1 then 1 else t.nextGeneration + 1)
          == t.nextGeneration) = false := by
        exact beq_eq_false_iff_ne.mpr hg2ne
      rw [hb, Bool.and_false]
    · unfold HandleTable.isValid
      rw [hslot2, hgen2, hgens2, hobjs2]
      rw [decide_eq_true (by exact hs1), beq_self_eq_true]
      rfl

theorem C6_handle_uniqueness_staleness_witness :
    getSlot 2 = getSlot 1 ∧
    ((((HandleTable.initial.create 100).1.close 1).1.create 200).1).isValid 1 = false ∧
    ((((HandleTable.initial.create 100).1.close 1).1.create 200).1).isValid 2 = true :=
  (C6_handle_uniqueness_staleness HandleTable.initial 100 200
    (HandleTable.initial.create 100).1 1 (by decide) (by decide) rfl).2
    ((HandleTable.initial.create 100).1.close 1).1
    ((((HandleTable.initial.create 100).1.close 1).1.create 200).1) 2 rfl rfl

theorem clientPortConnect_eq (ps : PortState) (pend : List Nat)
    (hport : ps.kst.objData ps.serverPortId = ObjData.serverPort pend)
    (hne : ps.serverPortId ≠ ps.nextId) :
    clientPortConnect ps =
      match (((ps.kst.setObj ps.nextId (createServerSession ps.hasHandler)).setObj
          ps.serverPortId (ObjData.serverPort (pend ++ [ps.nextId]))).wakeupAllWaitingThreads
          ps.serverPortId) with
      | none => none
      | some (kst3, _) =>
          some ({ ps with
                  activeSessions := ps.activeSessions + 1,
                  kst := kst3,
                  nextId := ps.nextId + 2,
                  notifiedSessions := if ps.hasHandler then ps.notifiedSessions ++ [ps.nextId]
                                      else ps.notifiedSessions }, ps.nextId + 1) := by
  have hx : (ps.kst.setObj ps.nextId (createServerSession ps.hasHandler)).objData
      ps.serverPortId = ObjData.serverPort pend := by
    rw [setObj_objData, if_neg hne, hport]
  simp only [clientPortConnect]
  rw [hx]

/-- C8: Connect always succeeds without blocking (the rejection path for
active_sessions at or above max_sessions is a commented-out no-op, so no
hypothesis relating them appears below): it increments active_sessions,
returns a fresh ClientSession id, creates the session pair inheriting the
HLE handler of the port, notifies the handler exactly when one is present,
appends the new ServerSession to pending_sessions and runs
WakeupAllWaitingThreads on the ServerPort.  The scenario part: with
max_sessions = 1, two consecutive Connect calls both succeed and
pending_sessions grows to length 2, past max_sessions. -/
theorem C8_client_port_connect :
    (∀ (ps : PortState) (pend : List Nat),
       ps.kst.objData ps.serverPortId = ObjData.serverPort pend →
       ps.serverPortId ≠ ps.nextId →
       ∀ (ps' : PortState) (cs : Nat), clientPortConnect ps = some (ps', cs) →
         ps'.activeSessions = ps.activeSessions + 1 ∧
         cs = ps.nextId + 1 ∧
         ps'.nextId = ps.nextId + 2 ∧
         ps'.maxSessions = ps.maxSessions ∧
         ps'.hasHandler = ps.hasHandler ∧
         ps'.notifiedSessions = (if ps.hasHandler then ps.notifiedSessions ++ [ps.nextId]
                                 else ps.notifiedSessions) ∧
         (∃ trace,
            (((ps.kst.setObj ps.nextId (createServerSession ps.hasHandler)).setObj
                ps.serverPortId (ObjData.serverPort (pend ++ [ps.nextId]))).wakeupAllWaitingThreads
              ps.serverPortId) = some (ps'.kst, trace)) ∧
         (ps'.kst.objData ps.serverPortId).portPending = pend ++ [ps.nextId]) ∧
    (∃ p1 p2,
       clientPortConnect c8Port = some p1 ∧
       clientPortConnect p1.1 = some p2 ∧
       c8Port.maxSessions = 1 ∧
       p1.1.activeSessions = 1 ∧ p1.1.kst.objData 0 = ObjData.serverPort [10] ∧
       p2.1.activeSessions = 2 ∧ p2.1.kst.objData 0 = ObjData.serverPort [10, 12] ∧
       p2.2 = 13) := by
  constructor
  · intro ps pend hport hne ps' cs hconn
    rw [clientPortConnect_eq ps pend hport hne] at hconn
    cases hw : (((ps.kst.setObj ps.nextId (createServerSession ps.hasHandler)).setObj
        ps.serverPortId (ObjData.serverPort (pend ++ [ps.nextId]))).wakeupAllWaitingThreads
        ps.serverPortId) with
    | none => rw [hw] at hconn; exact absurd hconn (by simp)
    | some p =>
      rw [hw] at hconn
      simp only [Option.some.injEq, Prod.mk.injEq] at hconn
      obtain ⟨hps, hcs⟩ := hconn
      subst hps
      have hpres := wakeupAll_objPreserved _ p.1 _ p.2 (by rw [hw])
      obtain ⟨-, -, -, hpend⟩ := hpres ps.serverPortId
      rw [setObj_objData, if_pos rfl] at hpend
      have hpend' : (p.1.objData ps.serverPortId).portPending = pend ++ [ps.nextId] := hpend
      exact ⟨rfl, hcs.symm, rfl, rfl, rfl, rfl, ⟨p.2, rfl⟩, hpend'⟩
  · exact ⟨_, _, rfl, rfl, rfl, rfl, rfl, rfl, rfl, rfl⟩

theorem C8_client_port_connect_witness :
    ∃ ps' cs, clientPortConnect c8Port = some (ps', cs) ∧
      ps'.activeSessions = 1 ∧ cs = 11 ∧
      (ps'.kst.objData 0).portPending = [10] :=
  ⟨_, _, rfl,
   (C8_client_port_connect.1 c8Port [] rfl (by decide) _ _ rfl).1,
   (C8_client_port_connect.1 c8Port [] rfl (by decide) _ _ rfl).2.1,
   (C8_client_port_connect.1 c8Port [] rfl (by decide) _ _ rfl).2.2.2.2.2.2.2⟩

theorem selectCandidate_spec (st : KState) :
    ∀ (l : List Nat) (cand : Option Nat) (cp : Int),
      (selectCandidate st l cand cp = cand ∧
        ∀ u ∈ l, readyToRun st u = true → cp ≤ (st.threads u).currentPriority) ∨
      (∃ l₁ r l₂, l = l₁ ++ r :: l₂ ∧ selectCandidate st l cand cp = some r ∧
        readyToRun st r = true ∧ (st.threads r).currentPriority < cp ∧
        (∀ u ∈ l₁, readyToRun st u = true →
          (st.threads r).currentPriority < (st.threads u).currentPriority) ∧
        (∀ u ∈ l₂, readyToRun st u = true →
          (st.threads r).currentPriority ≤ (st.threads u).currentPriority))
  | [], cand, cp => Or.inl ⟨rfl, by simp⟩
  | tid :: rest, cand, cp => by
    by_cases hskip : cp ≤ (st.threads tid).currentPriority
    · have heq : selectCandidate st (tid :: rest) cand cp = selectCandidate st rest cand cp := by
        simp only [selectCandidate, if_pos hskip]
      cases selectCandidate_spec st rest cand cp with
      | inl ih =>
        left
        refine ⟨heq.trans ih.1, ?_⟩
        intro u hu hru
        rcases List.mem_cons.mp hu with h | h
        · subst h; exact hskip
        · exact ih.2 u h hru
      | inr ih =>
        obtain ⟨l₁, r, l₂, hl, hres, hr, hlt, h₁, h₂⟩ := ih
        right
        refine ⟨tid :: l₁, r, l₂, by rw [hl]; rfl, heq.trans hres, hr, hlt, ?_, h₂⟩
        intro u hu hru
        rcases List.mem_cons.mp hu with h | h
        · subst h; exact lt_of_lt_of_le hlt hskip
        · exact h₁ u h hru
    · by_cases hready : readyToRun st tid = true
      · have heq : selectCandidate st (tid :: rest) cand cp =
            selectCandidate st rest (some tid) (st.threads tid).currentPriority := by
          simp only [selectCandidate, if_neg hskip, if_pos hready]
        cases selectCandidate_spec st rest (some tid) (st.threads tid).currentPriority with
        | inl ih =>
          right
          exact ⟨[], tid, rest, rfl, heq.trans ih.1, hready, by omega, by simp, ih.2⟩
        | inr ih =>
          obtain ⟨l₁, r, l₂, hl, hres, hr, hlt, h₁, h₂⟩ := ih
          right
          refine ⟨tid :: l₁, r, l₂, by rw [hl]; rfl, heq.trans hres, hr, by omega, ?_, h₂⟩
          intro u hu hru
          rcases List.mem_cons.mp hu with h | h
          · subst h; exact hlt
          · exact h₁ u h hru
      · have heq : selectCandidate st (tid :: rest) cand cp = selectCandidate st rest cand cp := by
          simp only [selectCandidate, if_neg hskip, if_neg hready]
        cases selectCandidate_spec st rest cand cp with
        | inl ih =>
          left
          refine ⟨heq.trans ih.1, ?_⟩
          intro u hu hru
          rcases List.mem_cons.mp hu with h | h
          · subst h; exact absurd hru hready
          · exact ih.2 u h hru
        | inr ih =>
          obtain ⟨l₁, r, l₂, hl, hres, hr, hlt, h₁, h₂⟩ := ih
          right
          refine ⟨tid :: l₁, r, l₂, by rw [hl]; rfl, heq.trans hres, hr, hlt, ?_, h₂⟩
          intro u hu hru
          rcases List.mem_cons.mp hu with h | h
          · subst h; exact absurd hru hready
          · exact h₁ u h hru

theorem ghprt_some_spec (st : KState) (oid tid : Nat)
    (h : (st.getHighestPriorityReadyThread oid).2 = some tid) :
    ∃ l₁ l₂,
      purgeResolved st.threads (st.waitList oid) = l₁ ++ tid :: l₂ ∧
      readyToRun st tid = true ∧
      (∀ u ∈ l₁, readyToRun st u = true →
         (st.threads tid).currentPriority < (st.threads u).currentPriority) ∧
      (∀ u ∈ l₂, readyToRun st u = true →
         (st.threads tid).currentPriority ≤ (st.threads u).currentPriority) := by
  simp only [KState.getHighestPriorityReadyThread] at h
  by_cases hsw : ((st.setWaitList oid (purgeResolved st.threads
      (st.waitList oid))).objData oid).shouldWait = true
  · rw [if_pos hsw] at h
    exact absurd h (by simp)
  · rw [if_neg hsw] at h
    have h' : selectCandidate (st.setWaitList oid (purgeResolved st.threads (st.waitList oid)))
        (purgeResolved st.threads (st.waitList oid)) none (THREADPRIO_LOWEST + 1) =
        some tid := h
    cases selectCandidate_spec (st.setWaitList oid (purgeResolved st.threads (st.waitList oid)))
        (purgeResolved st.threads (st.waitList oid)) none (THREADPRIO_LOWEST + 1) with
    | inl hc =>
      rw [h'] at hc
      exact absurd hc.1 (by simp)
    | inr hc =>
      obtain ⟨l₁, r, l₂, hl, hres, hr, hlt, h₁, h₂⟩ := hc
      rw [h'] at hres
      have hrt : r = tid := (Option.some.injEq _ _).mp hres.symm
      subst hrt
      exact ⟨l₁, l₂, hl, hr, h₁, h₂⟩

theorem ghprt_none_spec (st : KState) (oid : Nat)
    (h : (st.getHighestPriorityReadyThread oid).2 = none)
    (hns : (st.objData oid).shouldWait = false) :
    ∀ u ∈ purgeResolved st.threads (st.waitList oid),
      readyToRun st u = true →
      THREADPRIO_LOWEST + 1 ≤ (st.threads u).currentPriority := by
  simp only [KState.getHighestPriorityReadyThread] at h
  have hsw : ((st.setWaitList oid (purgeResolved st.threads
      (st.waitList oid))).objData oid).shouldWait = false := hns
  rw [hsw] at h
  rw [if_neg (by simp)] at h
  have h' : selectCandidate (st.setWaitList oid (purgeResolved st.threads (st.waitList oid)))
      (purgeResolved st.threads (st.waitList oid)) none (THREADPRIO_LOWEST + 1) = none := h
  cases selectCandidate_spec (st.setWaitList oid (purgeResolved st.threads (st.waitList oid)))
      (purgeResolved st.threads (st.waitList oid)) none (THREADPRIO_LOWEST + 1) with
  | inl hc => exact hc.2
  | inr hc =>
    obtain ⟨l₁, r, l₂, hl, hres, hr, hlt, h₁, h₂⟩ := hc
    rw [h'] at hres
    exact absurd hres (by simp)

/-- C1: whenever GetHighestPriorityReadyThread selects a thread, that thread
sits in the purged wait list, is ready (no object of its wait_objects
reports ShouldWait), every ready thread earlier in the wait list has
strictly greater priority (first found wins on ties) and every later ready
thread has priority at least as large; when it selects nobody although the
object itself is available, no purged waiter is ready with a legal priority.
Scenario: a single Signal of a sticky event with three waiters of priorities
5, 1, 3 (inserted in that order as threads 0, 1, 2) resumes them in the
order thread 1, thread 2, thread 0 - priorities 1, 3, 5. -/
theorem C1_priority_ordering :
    (∀ (st : KState) (oid tid : Nat),
       (st.getHighestPriorityReadyThread oid).2 = some tid →
       ∃ l₁ l₂,
         purgeResolved st.threads (st.waitList oid) = l₁ ++ tid :: l₂ ∧
         readyToRun st tid = true ∧
         (∀ u ∈ l₁, readyToRun st u = true →
            (st.threads tid).currentPriority < (st.threads u).currentPriority) ∧
         (∀ u ∈ l₂, readyToRun st u = true →
            (st.threads tid).currentPriority ≤ (st.threads u).currentPriority)) ∧
    (∀ (st : KState) (oid : Nat),
       (st.getHighestPriorityReadyThread oid).2 = none →
       (st.objData oid).shouldWait = false →
       ∀ u ∈ purgeResolved st.threads (st.waitList oid),
         readyToRun st u = true →
         THREADPRIO_LOWEST + 1 ≤ (st.threads u).currentPriority) ∧
    ((eventSignal c1State 0).map Prod.snd = some [1, 2, 0] ∧
     (c1State.threads 1).currentPriority = 1 ∧
     (c1State.threads 2).currentPriority = 3 ∧
     (c1State.threads 0).currentPriority = 5 ∧
     c1State.waitList 0 = [0, 1, 2]) :=
  ⟨ghprt_some_spec, ghprt_none_spec, rfl, rfl, rfl, rfl, rfl⟩

theorem C1_priority_ordering_witness :
    ∃ l₁ l₂, purgeResolved c1Sig.threads (c1Sig.waitList 0) = l₁ ++ 1 :: l₂ ∧
      readyToRun c1Sig 1 = true ∧
      (∀ u ∈ l₁, readyToRun c1Sig u = true →
         (c1Sig.threads 1).currentPriority < (c1Sig.threads u).currentPriority) ∧
      (∀ u ∈ l₂, readyToRun c1Sig u = true →
         (c1Sig.threads 1).currentPriority ≤ (c1Sig.threads u).currentPriority) :=
  C1_priority_ordering.1 c1Sig 0 1 rfl

theorem setThread_threads_self (st : KState) (tid : Nat) (t : ThreadData) :
    (st.setThread tid t).threads tid = t := by
  show (if tid = tid then t else st.threads tid) = t
  rw [if_pos rfl]

theorem acquireAllAndRemove_spec {tid : Nat} :
    ∀ (os : List Nat) (st st' : KState), os.Nodup →
      (∀ o, (st.waitList o).Nodup) →
      acquireAllAndRemove tid os st = some st' →
      (∀ o ∈ os, (st.objData o).acquire = some (st'.objData o) ∧ tid ∉ st'.waitList o) ∧
      (∀ o, o ∉ os → st'.objData o = st.objData o ∧ st'.waitList o = st.waitList o) ∧
      (∀ o, (st'.waitList o).Nodup) ∧
      st'.threads = st.threads
  | [], st, st', hnd, hwl, h => by
    simp only [acquireAllAndRemove, Option.some.injEq] at h
    subst h
    exact ⟨by simp, fun o _ => ⟨rfl, rfl⟩, hwl, rfl⟩
  | o :: rest, st, st', hnd, hwl, h => by
    unfold acquireAllAndRemove at h
    cases hacq : st.acquireAt o with
    | none => rw [hacq] at h; exact absurd h (by simp)
    | some stA =>
      rw [hacq] at h
      have hAd : ∃ d, (st.objData o).acquire = some d ∧ stA = st.setObj o d := by
        unfold KState.acquireAt at hacq
        cases hd : (st.objData o).acquire with
        | none => rw [hd] at hacq; exact absurd hacq (by simp)
        | some d =>
          rw [hd] at hacq
          simp only [Option.some.injEq] at hacq
          exact ⟨d, rfl, hacq.symm⟩
      obtain ⟨d, hd, hstA⟩ := hAd
      subst hstA
      have honotin : o ∉ rest := (List.nodup_cons.mp hnd).1
      have hndrest : rest.Nodup := (List.nodup_cons.mp hnd).2
      have hBobj : ∀ o2, (((st.setObj o d).setWaitList o
          (((st.setObj o d).waitList o).erase tid)).objData o2)
          = if o2 = o then d else st.objData o2 := fun o2 => rfl
      have hBwl : ∀ o2, (((st.setObj o d).setWaitList o
          (((st.setObj o d).waitList o).erase tid)).waitList o2)
          = if o2 = o then (st.waitList o).erase tid else st.waitList o2 := fun o2 => rfl
      have hwlB : ∀ o2, ((((st.setObj o d).setWaitList o
          (((st.setObj o d).waitList o).erase tid)).waitList o2)).Nodup := by
        intro o2
        rw [hBwl o2]
        by_cases ho2 : o2 = o
        · rw [if_pos ho2]; exact (hwl o).erase tid
        · rw [if_neg ho2]; exact hwl o2
      obtain ⟨ih1, ih2, ih3, ih4⟩ := acquireAllAndRemove_spec rest _ st' hndrest hwlB h
      refine ⟨?_, ?_, ih3, ih4⟩
      · intro o2 ho2
        rcases List.mem_cons.mp ho2 with he | he
        · subst he
          obtain ⟨hob, hwb⟩ := ih2 o2 honotin
          rw [hBobj o2, if_pos rfl] at hob
          rw [hBwl o2, if_pos rfl] at hwb
          refine ⟨by rw [hd, hob], ?_⟩
          rw [hwb]
          intro hmem
          exact absurd (((hwl o2).mem_erase_iff).mp hmem).1 (by simp)
        · have hne : o2 ≠ o := fun e => honotin (e ▸ he)
          obtain ⟨hob, hwb⟩ := ih1 o2 he
          rw [hBobj o2, if_neg hne] at hob
          exact ⟨hob, hwb⟩
      · intro o2 ho2
        have h1 : o2 ≠ o := fun e => ho2 (by rw [e]; exact List.mem_cons_self o rest)
        have h2 : o2 ∉ rest := fun hm => ho2 (List.mem_cons_of_mem o hm)
        obtain ⟨hob, hwb⟩ := ih2 o2 h2
        rw [hBobj o2, if_neg h1] at hob
        rw [hBwl o2, if_neg h1] at hwb
        exact ⟨hob, hwb⟩

theorem wakeupOne_waitAll_spec (st : KState) (oid tid : Nat) (st2 : KState)
    (hall : (st.threads tid).waitAll = true)
    (hnd : (st.threads tid).waitObjects.Nodup)
    (hwl : ∀ o, (st.waitList o).Nodup)
    (h : wakeupOne st oid tid = some st2) :
    (st2.threads tid).waitObjects = [] ∧
    (st2.threads tid).status = ThreadStatus.ready ∧
    (st2.threads tid).resultSet = true ∧
    ∀ o ∈ (st.threads tid).waitObjects,
      (st.objData o).acquire = some (st2.objData o) ∧ tid ∉ st2.waitList o := by
  unfold wakeupOne at h
  simp only [hall, Bool.not_true, Bool.false_eq_true, if_false] at h
  cases hacq : acquireAllAndRemove tid (st.threads tid).waitObjects st with
  | none => rw [hacq] at h; exact absurd h (by simp)
  | some st1 =>
    rw [hacq] at h
    simp only [Option.some.injEq] at h
    subst h
    obtain ⟨s1, s2, s3, s4⟩ := acquireAllAndRemove_spec _ st st1 hnd hwl hacq
    refine ⟨?_, ?_, ?_, ?_⟩
    · rw [setThread_threads_self, setThread_threads_self]
    · rw [setThread_threads_self]
    · rw [setThread_threads_self]
    · intro o ho
      exact s1 o ho

/-- C2: whenever GetHighestPriorityReadyThread selects a thread, every
object in its wait_objects list reports ShouldWait false at that moment (so
a wait-all thread is never resumed while any of its objects is still
unavailable); and when the wakeup body runs for a wait-all thread, Acquire
is called on every object of its wait_objects list, the thread is removed
from the wait list of each of them, its wait_objects list is cleared and it
is resumed (status ready) with a success result.  Scenarios: signaling only
A of the pair {A, B} resumes nobody (the thread stays in WaitSync), and
signaling B once A is signaled resumes the thread with both objects
acquired, both wait lists emptied and wait_objects cleared. -/
theorem C2_wait_all_atomicity :
    (∀ (st : KState) (oid tid : Nat),
       (st.getHighestPriorityReadyThread oid).2 = some tid →
       ∀ o ∈ (st.threads tid).waitObjects, (st.objData o).shouldWait = false) ∧
    (∀ (st : KState) (oid tid : Nat) (st2 : KState),
       (st.threads tid).waitAll = true →
       (st.threads tid).waitObjects.Nodup →
       (∀ o, (st.waitList o).Nodup) →
       wakeupOne st oid tid = some st2 →
       (st2.threads tid).waitObjects = [] ∧
       (st2.threads tid).status = ThreadStatus.ready ∧
       (st2.threads tid).resultSet = true ∧
       ∀ o ∈ (st.threads tid).waitObjects,
         (st.objData o).acquire = some (st2.objData o) ∧ tid ∉ st2.waitList o) ∧
    (∃ p, eventSignal c2State 0 = some p ∧ p.2 = [] ∧
       (p.1.threads 0).status = ThreadStatus.waitSync) ∧
    (∃ p, eventSignal c2Both 1 = some p ∧ p.2 = [0] ∧
       (p.1.threads 0).status = ThreadStatus.ready ∧
       (p.1.threads 0).waitObjects = [] ∧
       p.1.waitList 0 = [] ∧ p.1.waitList 1 = [] ∧
       p.1.objData 1 = ObjData.event ResetType.oneShot false) := by
  refine ⟨?_, fun st oid tid st2 => wakeupOne_waitAll_spec st oid tid st2,
    ⟨_, rfl, rfl, rfl⟩, ⟨_, rfl, rfl, rfl, rfl, rfl, rfl, rfl⟩⟩
  intro st oid tid h o ho
  obtain ⟨l₁, l₂, -, hready, -, -⟩ := ghprt_some_spec st oid tid h
  simp only [readyToRun, List.all_eq_true] at hready
  have := hready o ho
  simpa using this

theorem C2_wait_all_atomicity_witness :
    ∃ st2, wakeupOne (c2Both.setObj 1 (ObjData.event ResetType.oneShot true)) 1 0 = some st2 ∧
      (st2.threads 0).waitObjects = [] ∧ (st2.threads 0).status = ThreadStatus.ready := by
  have hwl : ∀ o, ((c2Both.setObj 1 (ObjData.event ResetType.oneShot true)).waitList o).Nodup := by
    intro o
    show (if o ≤ 1 then [0] else []).Nodup
    by_cases h : o ≤ 1
    · rw [if_pos h]; exact List.nodup_singleton 0
    · rw [if_neg h]; exact List.nodup_nil
  cases hE : wakeupOne (c2Both.setObj 1 (ObjData.event ResetType.oneShot true)) 1 0 with
  | none =>
    have hE2 : (wakeupOne (c2Both.setObj 1 (ObjData.event ResetType.oneShot true)) 1 0).isSome
        = true := by decide
    rw [hE] at hE2
    exact absurd hE2 (by simp)
  | some st2 =>
    obtain ⟨h1, h2, h3, h4⟩ := C2_wait_all_atomicity.2.1
      (c2Both.setObj 1 (ObjData.event ResetType.oneShot true)) 1 0 st2
      (by decide) (by decide) hwl hE
    exact ⟨st2, rfl, h1, h2⟩

end Citra
